import Mathlib

/-!
Verification of the ASLM microscope-control repository acquisition core.

This file gives a shallow embedding, in Lean 4, of the acquisition
orchestration code (src/model/aslm_model.py), the frame identity logic
(src/aslm/controller/sub_controllers/camera_view_controller.py), the
pyramidal data source (src/navigate/model/data_sources/pyramidal_data_source.py)
and the device connection retry helper
(src/aslm/model/device_startup_functions.py), together with theorems
settling the specification claims about them.

Conventions of the embedding:
- Python dicts that are iterated in insertion order become association
  lists, machine integers become Nat, float quantities whose exact values
  matter (sweep times in seconds, retry delays) become Rat.
- Stateful methods become explicit state-passing functions; methods whose
  observable behaviour is a sequence of device commands additionally
  return the emitted command trace as a list of events.
- The channels dict of a MicroscopeState is keyed by strings of the form
  channel_i in the source; run_single_acquisition parses the numeric
  suffix with int(key[len(prefix_str):]).  The embedding stores the parsed
  numeric key directly.
-/

/-- One channel descriptor of a MicroscopeState
(fields read by run_single_acquisition in src/model/aslm_model.py). -/
structure AcqChannel where
  is_selected : Bool
  /-- camera exposure time in milliseconds -/
  camera_exposure_time : Nat
  laser_index : Nat
  laser_power : Nat
  filter : String
deriving DecidableEq, Repr

/-- One stage position entry of the stage_positions list. -/
structure StagePos where
  x : Int
  y : Int
  z : Int
  theta : Int
  f : Int
deriving DecidableEq, Repr

/-- The fields of the MicroscopeState dict that the acquisition
orchestrator reads (src/model/aslm_model.py). -/
structure MicroscopeState where
  /-- channels dict; key is the numeric suffix of the channel_i key -/
  channels : List (Nat × AcqChannel)
  stage_positions : List StagePos
  number_z_steps : Nat
  timepoints : Nat
  resolution_mode : String
  stack_cycling_mode : String
deriving DecidableEq, Repr

/-- The acquisition-housekeeping attributes of the Model class set in
Model.__init__ and mutated by the acquisition commands
(src/model/aslm_model.py). total_acquisition_count and total_image_count
start as None in the source, hence Option Nat here. -/
structure ModelState where
  data_buffer : Option Nat
  stop_acquisition : Bool
  stop_send_signal : Bool
  image_count : Nat
  acquisition_count : Nat
  total_acquisition_count : Option Nat
  total_image_count : Option Nat
  current_time_point : Nat
  current_channel : Nat
  current_filter : String
  current_laser : String
  current_laser_index : Nat
  /-- current exposure time in milliseconds; the source initializes it to 200 -/
  current_exposure_time : Nat
  is_save : Bool
  has_live_thread : Bool
deriving DecidableEq, Repr

/-- Model.__init__ acquisition housekeeping defaults (src/model/aslm_model.py). -/
def initialModelState : ModelState :=
  { data_buffer := none
    stop_acquisition := false
    stop_send_signal := false
    image_count := 0
    acquisition_count := 0
    total_acquisition_count := none
    total_image_count := none
    current_time_point := 0
    current_channel := 0
    current_filter := "Empty"
    current_laser := "488nm"
    current_laser_index := 1
    current_exposure_time := 200
    is_save := false
    has_live_thread := false }

/-- Model.calculate_number_of_channels: the length of the channels dict
of the MicroscopeState (src/model/aslm_model.py, lines 351-355). -/
def calculate_number_of_channels (ms : MicroscopeState) : Nat :=
  ms.channels.length

/-- Model.prepare_acquisition_list (src/model/aslm_model.py, lines
357-373): resets image_count and acquisition_count, and sets
total_acquisition_count and total_image_count from the channel,
position, slice and timepoint counts. -/
def prepare_acquisition_list (st : ModelState) (ms : MicroscopeState) : ModelState :=
  let number_of_channels := calculate_number_of_channels ms
  let number_of_positions := ms.stage_positions.length
  let number_of_slices := ms.number_z_steps
  let number_of_time_points := ms.timepoints
  { st with
    image_count := 0
    acquisition_count := 0
    total_acquisition_count :=
      some (number_of_channels * number_of_positions * number_of_time_points)
    total_image_count :=
      some (number_of_channels * number_of_positions * number_of_time_points
        * number_of_slices) }

/-- The channel count as the claim reads it: only the channels whose
is_selected flag is set (compare calculate_number_of_channels, which
counts every entry of the channels dict). -/
def selected_channel_count (ms : MicroscopeState) : Nat :=
  (ms.channels.filter (fun c => c.2.is_selected)).length

/-- Observable device commands issued during one acquisition sweep
(src/model/aslm_model.py, run_single_acquisition and snap_image). -/
inductive DeviceEvent where
  /-- camera.set_exposure_time, milliseconds -/
  | setExposureTime (ms : Nat)
  /-- laser_triggers.trigger_digital_laser -/
  | triggerDigitalLaser (laserIndex : Nat)
  /-- laser_triggers.set_laser_analog_voltage -/
  | setLaserAnalogVoltage (laserIndex power : Nat)
  /-- filter_wheel.set_filter -/
  | setFilter (filterName : String)
  /-- assignment daq.sweep_time := seconds -/
  | setSweepTime (seconds : Rat)
  /-- daq.update_etl_parameters(microscope_state, channel) -/
  | updateEtlParameters
  /-- daq.prepare_acquisition -/
  | prepareAcquisition
  /-- daq.run_acquisition -/
  | runAcquisition
  /-- daq.stop_acquisition -/
  | stopAcquisition
deriving DecidableEq, Repr

/-- Model.snap_image (src/model/aslm_model.py, lines 422-433): prepare,
run and stop the DAQ acquisition, in that order. -/
def snap_image : List DeviceEvent :=
  [DeviceEvent.prepareAcquisition, DeviceEvent.runAcquisition,
   DeviceEvent.stopAcquisition]

/-- Model.run_single_acquisition (src/model/aslm_model.py, lines 379-420),
written as a recursion over the channels association list.  At the top of
every channel iteration the stop flags are tested and the loop breaks when
either is raised.  Unselected channels are skipped.  For a selected
channel the source sets current_channel and then issues: camera exposure,
digital laser trigger (at the current laser index of the model), laser
analog voltage, filter wheel, the daq.sweep_time assignment (from the
current_exposure_time attribute of the model, in milliseconds, divided by
1000), the ETL parameter update, and finally snap_image. -/
def run_single_acquisition_over :
    ModelState → List (Nat × AcqChannel) → ModelState × List DeviceEvent
  | st, [] => (st, [])
  | st, (channel_idx, channel) :: rest =>
    if st.stop_acquisition || st.stop_send_signal then (st, [])
    else
      if channel.is_selected then
        let st1 := { st with current_channel := channel_idx }
        let evs : List DeviceEvent :=
          [DeviceEvent.setExposureTime channel.camera_exposure_time,
           DeviceEvent.triggerDigitalLaser st1.current_laser_index,
           DeviceEvent.setLaserAnalogVoltage channel.laser_index channel.laser_power,
           DeviceEvent.setFilter channel.filter,
           DeviceEvent.setSweepTime ((st1.current_exposure_time : Rat) / 1000),
           DeviceEvent.updateEtlParameters] ++ snap_image
        let r := run_single_acquisition_over st1 rest
        (r.1, evs ++ r.2)
      else
        run_single_acquisition_over st rest

/-- Model.run_single_acquisition applied to a MicroscopeState. -/
def run_single_acquisition (st : ModelState) (ms : MicroscopeState) :
    ModelState × List DeviceEvent :=
  run_single_acquisition_over st ms.channels

/-- The device commands the source issues for one selected channel
(the body of the is_selected branch of run_single_acquisition). -/
def per_channel_events (st : ModelState) (channel : AcqChannel) : List DeviceEvent :=
  [DeviceEvent.setExposureTime channel.camera_exposure_time,
   DeviceEvent.triggerDigitalLaser st.current_laser_index,
   DeviceEvent.setLaserAnalogVoltage channel.laser_index channel.laser_power,
   DeviceEvent.setFilter channel.filter,
   DeviceEvent.setSweepTime ((st.current_exposure_time : Rat) / 1000),
   DeviceEvent.updateEtlParameters] ++ snap_image

/-- The per-channel command list as claim C2 states it: identical to
per_channel_events except that the sweep time is the exposure time of the
channel, in milliseconds, divided by 1000. -/
def claim_channel_events (st : ModelState) (channel : AcqChannel) : List DeviceEvent :=
  [DeviceEvent.setExposureTime channel.camera_exposure_time,
   DeviceEvent.triggerDigitalLaser st.current_laser_index,
   DeviceEvent.setLaserAnalogVoltage channel.laser_index channel.laser_power,
   DeviceEvent.setFilter channel.filter,
   DeviceEvent.setSweepTime ((channel.camera_exposure_time : Rat) / 1000),
   DeviceEvent.updateEtlParameters] ++ snap_image

/-- The coarse observable actions of Model.run_command
(src/model/aslm_model.py, lines 197-261). -/
inductive ModelAction where
  /-- self.open_shutter() -/
  | openShutter
  /-- self.run_single_acquisition() -/
  | runSingleAcquisitionAct
  /-- self.run_data_process(n) run synchronously -/
  | runDataProcessAct (numFrames : Nat)
  /-- self.close_shutter() -/
  | closeShutter
  /-- start of the live acquisition thread -/
  | startLiveThread
  /-- start of the data process thread -/
  | startDataThread
  /-- join on the live acquisition thread -/
  | joinLiveThread
  /-- join on the data process thread -/
  | joinDataThread
deriving DecidableEq, Repr

/-- How a call into the model returns: a plain Python return, or a raised
exception carrying a message. -/
inductive RunOutcome where
  | normalReturn
  | raised (message : String)
deriving DecidableEq, Repr

/-- Model.run_command (src/model/aslm_model.py, lines 197-261).  The
source first tests the data buffer: when no shared buffer has been set
up it returns at once (after an optional verbose print), touching
nothing.  Otherwise it branches on the command string.  The thread
bodies started by the live command run concurrently in the source; here
only the issued actions are recorded. -/
def run_command (st : ModelState) (command : String) (ms : MicroscopeState)
    (saving_is_save : Bool) : ModelState × List ModelAction × RunOutcome :=
  if st.data_buffer = none then (st, [], RunOutcome.normalReturn)
  else
    if command = "single" then
      let st := { st with is_save := saving_is_save, stop_acquisition := false,
                          stop_send_signal := false }
      let sweep := run_single_acquisition st ms
      let st := { sweep.1 with stop_acquisition := true }
      (st,
       [ModelAction.openShutter, ModelAction.runSingleAcquisitionAct,
        ModelAction.runDataProcessAct 1, ModelAction.closeShutter],
       RunOutcome.normalReturn)
    else if command = "live" then
      let st := { st with is_save := false, stop_acquisition := false,
                          stop_send_signal := false, has_live_thread := true }
      (st,
       [ModelAction.openShutter, ModelAction.startLiveThread,
        ModelAction.startDataThread],
       RunOutcome.normalReturn)
    else if command = "series" then
      (st, [], RunOutcome.normalReturn)
    else if command = "update_setting" then
      let st := { st with stop_send_signal := false }
      (st,
       [ModelAction.joinLiveThread, ModelAction.startLiveThread],
       RunOutcome.normalReturn)
    else if command = "stop" then
      let st := { st with stop_acquisition := true }
      (st,
       (if st.has_live_thread then
          [ModelAction.joinLiveThread, ModelAction.joinDataThread]
        else []) ++ [ModelAction.closeShutter],
       RunOutcome.normalReturn)
    else
      (st, [], RunOutcome.normalReturn)

/-- Number of sweep iterations the live loop body performs, given the pair
of stop flags (stop_acquisition, stop_send_signal) observed at the top of
each while test: the loop runs while both are false. -/
def live_loop_sweeps (obs : List (Bool × Bool)) : Nat :=
  (obs.takeWhile (fun o => !o.1 && !o.2)).length

/-- Model.run_live_acquisition (src/model/aslm_model.py, lines 435-443):
assigns stop_acquisition := False on entry, then loops
run_single_acquisition while both stop flags read false.  The flags are
mutated concurrently by run_command; the embedding therefore takes the
sequence of flag values observed at the second and later while tests as
an oracle (the first test reads the just-assigned false together with the
unmodified stop_send_signal), and returns how many sweeps execute. -/
def run_live_acquisition (st : ModelState) (laterObs : List (Bool × Bool)) : Nat :=
  live_loop_sweeps ((false, st.stop_send_signal) :: laterObs)

/-- The attributes of CameraViewController used by frame identity
bookkeeping (src/aslm/controller/sub_controllers/camera_view_controller.py). -/
structure CameraViewState where
  image_counter : Nat
  slice_index : Nat
  channel_index : Nat
  number_of_channels : Nat
  number_of_slices : Nat
  total_images_per_volume : Nat
deriving DecidableEq, Repr

/-- CameraViewController.initialize_non_live_display counter setup:
image_counter := 0, slice_index := 0, number_of_channels :=
len(channels), number_of_slices := number_z_steps,
total_images_per_volume := number_of_channels * number_of_slices. -/
def initialize_non_live_display (numberOfChannels numberZSteps : Nat) :
    CameraViewState :=
  { image_counter := 0
    slice_index := 0
    channel_index := 0
    number_of_channels := numberOfChannels
    number_of_slices := numberZSteps
    total_images_per_volume := numberOfChannels * numberZSteps }

/-- The per_stack channel selection chain of
identify_channel_index_and_slice: an elif cascade over
k * number_of_slices <= image_counter < (k + 1) * number_of_slices for
k = 0..4, falling back to channel 0 (with a printed warning) beyond
5 * number_of_slices. -/
def per_stack_channel_index (counter s : Nat) : Nat :=
  if counter < 1 * s then 0
  else if counter < 2 * s then 1
  else if counter < 3 * s then 2
  else if counter < 4 * s then 3
  else if counter < 5 * s then 4
  else 0

/-- CameraViewController.identify_channel_index_and_slice
(src/aslm/controller/sub_controllers/camera_view_controller.py, lines
710-779).  First the image counter is reset to 0 when it has reached
total_images_per_volume.  In per_stack mode the channel comes from the
elif cascade on the image counter, the slice is
image_counter - channel_index * number_of_slices, and the image counter
advances.  In per_z mode the channel is images_received mod
number_of_channels, the slice index advances only when the channel index
equals number_of_channels - 1, and is zeroed when it reaches
total_images_per_volume; the image counter does not advance. -/
def identify_channel_index_and_slice (st : CameraViewState)
    (stack_cycling_mode : String) (images_received : Nat) : CameraViewState :=
  let st :=
    if st.image_counter = st.total_images_per_volume then
      { st with image_counter := 0 }
    else st
  if stack_cycling_mode = "per_stack" then
    let ch := per_stack_channel_index st.image_counter st.number_of_slices
    { st with
      channel_index := ch
      slice_index := st.image_counter - ch * st.number_of_slices
      image_counter := st.image_counter + 1 }
  else if stack_cycling_mode = "per_z" then
    let ch := images_received % st.number_of_channels
    let sl :=
      if ch = st.number_of_channels - 1 then st.slice_index + 1
      else st.slice_index
    let sl := if sl = st.total_images_per_volume then 0 else sl
    { st with channel_index := ch, slice_index := sl }
  else st

/-- Integer ceiling division, the Nat computation matching
np.ceil(s / r).astype(int) for positive r. -/
def ceil_div (s r : Nat) : Nat :=
  (s + r - 1) / r

/-- The metadata of a PyramidalDataSource needed by its shapes,
subdivisions and __getitem__ members
(src/navigate/model/data_sources/pyramidal_data_source.py).  Resolutions
are stored per level as (x, y, z) downsample factor triples, per the BDV
convention; the constructor default is the single level [(1, 1, 1)].
shape_c, shape_t and positions are the channel, timepoint and position
extents used by __getitem__. -/
structure PyramidMeta where
  shape_x : Nat
  shape_y : Nat
  shape_z : Nat
  shape_c : Nat
  shape_t : Nat
  positions : Nat
  resolutions : List (Nat × Nat × Nat)
deriving DecidableEq, Repr

/-- PyramidalDataSource.shapes (lines 114-133): per level, the (z, y, x)
shape triple maximum(ceil(full_shape / resolutions reversed), 1), where
the full shape is (shape_z, shape_y, shape_x) and the (x, y, z)
resolution triple is reversed to (z, y, x) before dividing. -/
def shapes (m : PyramidMeta) : List (Nat × Nat × Nat) :=
  m.resolutions.map (fun r =>
    (max (ceil_div m.shape_z r.2.2) 1,
     max (ceil_div m.shape_y r.2.1) 1,
     max (ceil_div m.shape_x r.1) 1))

/-- PyramidalDataSource.subdivisions (lines 90-112): per level, gcd(32, s)
of each component of the (z, y, x) shape triple, clamped to at least 1,
and then reversed to (x, y, z) order. -/
def subdivisions (m : PyramidMeta) : List (Nat × Nat × Nat) :=
  (shapes m).map (fun sh =>
    let g := (Nat.gcd 32 sh.1, Nat.gcd 32 sh.2.1, Nat.gcd 32 sh.2.2)
    let g := (max g.1 1, max g.2.1 1, max g.2.2 1)
    (g.2.2, g.2.1, g.1))

/-- One component of an index tuple passed to
PyramidalDataSource.__getitem__: a scalar, a start-stop slice, a bare
colon slice, or Ellipsis. -/
inductive IndexKey where
  | scalar (n : Nat)
  | rangeIdx (start stop : Nat)
  | colon
  | ellipsisKey
deriving DecidableEq, Repr

/-- A slice along one of the x, y, z axes after normalization. -/
inductive AxisSlice where
  | whole
  | fromTo (start stop : Nat)
deriving DecidableEq, Repr

/-- Modelled from the spec: the helper ensure_slice of
src/navigate/tools/slicing.py is not part of the provided sources (only
its caller __getitem__ is).  Per the spec, x, y and z index components
may be ranges; a scalar selects a one-element range and an absent,
colon or Ellipsis component selects the whole axis. -/
def ensure_slice (keys : List IndexKey) (axis : Nat) : AxisSlice :=
  match keys.get? axis with
  | some (IndexKey.scalar n) => AxisSlice.fromTo n (n + 1)
  | some (IndexKey.rangeIdx a b) => AxisSlice.fromTo a b
  | some IndexKey.colon => AxisSlice.whole
  | some IndexKey.ellipsisKey => AxisSlice.whole
  | none => AxisSlice.whole

/-- Modelled from the spec: the helper ensure_iter of
src/navigate/tools/slicing.py is not part of the provided sources.  Per
the spec, the c, t and p components are scalar selectors: a scalar
selects the singleton, a range selects its values, and an absent, colon
or Ellipsis component (the trailing Ellipsis collapses to all remaining
dims) selects the whole 0..dim-1 range. -/
def ensure_iter (keys : List IndexKey) (axis dim : Nat) : List Nat :=
  match keys.get? axis with
  | some (IndexKey.scalar n) => [n]
  | some (IndexKey.rangeIdx a b) => List.range' a (b - a)
  | some IndexKey.colon => List.range dim
  | some IndexKey.ellipsisKey => List.range dim
  | none => List.range dim

/-- Modelled from the spec: the helper slice_len of
src/navigate/tools/slicing.py is not part of the provided sources.  It
returns the number of indices a slice selects along an axis of the given
extent, clipping the bounds to the extent. -/
def slice_len (s : AxisSlice) (dim : Nat) : Nat :=
  match s with
  | AxisSlice.whole => dim
  | AxisSlice.fromTo a b => min b dim - min a dim

/-- The arguments of one delegated
PyramidalDataSource.get_slice(x, y, c, z, t, p, subdiv) call.  get_slice
itself raises NotImplementedError in this class and is supplied by a
derived class, so the embedding records the calls. -/
structure SliceCall where
  xs : AxisSlice
  ys : AxisSlice
  c : Nat
  zs : AxisSlice
  t : Nat
  p : Nat
  subdiv : Nat
deriving DecidableEq, Repr

/-- What a successful PyramidalDataSource.__getitem__ call produces: the
single 3D (z, y, x) slice of one get_slice call, or a 6D array of the
recorded (p, t, z, c, y, x) shape filled by one get_slice call per
element of the c, t, p cross-product, in that loop order. -/
inductive GetItemResult where
  | single3D (call : SliceCall)
  | multi6D (shape : Nat × Nat × Nat × Nat × Nat × Nat) (calls : List SliceCall)
deriving DecidableEq, Repr

/-- The subdivision level selected by an index tuple in
PyramidalDataSource.__getitem__: a trailing Ellipsis is first stripped
(only when more than one component is present), and then a remaining
scalar 7th component selects the level; anything else selects level 0. -/
def getitem_sub (keys : List IndexKey) : Nat :=
  let keys2 :=
    if 1 < keys.length ∧ keys.getLast? = some IndexKey.ellipsisKey then
      keys.dropLast
    else keys
  if 6 < keys2.length then
    match keys2.get? 6 with
    | some (IndexKey.scalar n) => n
    | _ => 0
  else 0

/-- The dispatch of PyramidalDataSource.__getitem__ once the index
components have been normalized.  If c, t and p each selected exactly
one value, the call returns the single get_slice result.  Otherwise the
source reads self.resolutions[sub_divisions] to size the output array -
an IndexError when that level does not exist - and fills a
(p, t, z, c, y, x) array with one get_slice call per element of the
c, t, p cross-product, looping c outermost, then t, then p. -/
def getitem_core (m : PyramidMeta) (xs ys : AxisSlice) (cs : List Nat)
    (zs : AxisSlice) (ts ps : List Nat) (sub : Nat) :
    Except String GetItemResult :=
  match cs, ts, ps with
  | [c], [t], [p] =>
    Except.ok (GetItemResult.single3D ⟨xs, ys, c, zs, t, p, sub⟩)
  | cs, ts, ps =>
    match m.resolutions.get? sub with
    | none =>
      Except.error "index out of bounds: no such subdivision level"
    | some r =>
      Except.ok (GetItemResult.multi6D
        (ps.length, ts.length, slice_len zs m.shape_z / r.2.2,
         cs.length, slice_len ys m.shape_y / r.2.1,
         slice_len xs m.shape_x / r.1)
        (cs.flatMap (fun c => ts.flatMap (fun t => ps.map (fun p =>
          (⟨xs, ys, c, zs, t, p, sub⟩ : SliceCall))))))

/-- PyramidalDataSource.__getitem__ (lines 200-278).  The component count
of the index tuple is checked first: fewer than 1 raises IndexError (too
few indices), more than 7 raises IndexError (too many indices).  The
x, y, z components become slices and the c, t, p components become
iterables over their axes; a trailing Ellipsis is stripped and a
remaining scalar 7th component selects the subdivision level; then
getitem_core dispatches between the single-slice and cross-product
paths. -/
def getitem (m : PyramidMeta) (keys : List IndexKey) :
    Except String GetItemResult :=
  let length := keys.length
  if length < 1 then
    Except.error "Too few indices. Indices may be (x, y, c, z, t, p, subdivisions)."
  else if 7 < length then
    Except.error "Too many indices. Indices may be (x, y, c, z, t, p, subdivisions)."
  else
    getitem_core m (ensure_slice keys 0) (ensure_slice keys 1)
      (ensure_iter keys 2 m.shape_c) (ensure_slice keys 3)
      (ensure_iter keys 4 m.shape_t) (ensure_iter keys 5 m.positions)
      (getitem_sub keys)

/-- One observable event of the auto_redial retry loop
(src/aslm/model/device_startup_functions.py): a connection attempt with
its zero-based index, or a time.sleep with its duration in seconds. -/
inductive RedialEvent where
  | callAttempt (attemptIndex : Nat)
  | sleepFor (seconds : Rat)
deriving DecidableEq, Repr

/-- The body of auto_redial (src/aslm/model/device_startup_functions.py,
lines 54-94), as a recursion over the remaining attempt indices of
range(n_tries).  Each iteration calls the connection function; on
success the loop breaks with the connection object.  On failure, when
this is not the last attempt (i < n_tries - 1, i.e. further indices
remain) the loop sleeps 0.5 seconds and retries; on the last attempt it
re-raises the configured exception, modelled as the none result. -/
def auto_redial_loop (attempt : Nat → Option α) :
    List Nat → List RedialEvent × Option α
  | [] => ([], none)
  | i :: rest =>
    match attempt i with
    | some v => ([RedialEvent.callAttempt i], some v)
    | none =>
      match rest with
      | [] => ([RedialEvent.callAttempt i], none)
      | _ :: _ =>
        let r := auto_redial_loop attempt rest
        (RedialEvent.callAttempt i :: RedialEvent.sleepFor (1 / 2) :: r.1, r.2)

/-- auto_redial(func, args, n_tries, exception): run the retry loop over
the attempt indices range(n_tries).  The attempt oracle gives the
outcome of the i-th call of func: some connection object, or none when
the call raises the configured exception. -/
def auto_redial (attempt : Nat → Option α) (n_tries : Nat) :
    List RedialEvent × Option α :=
  auto_redial_loop attempt (List.range n_tries)

/-- The default value of the n_tries parameter of auto_redial. -/
def auto_redial_default_tries : Nat := 10

/-- A MicroscopeState with two configured channels of which only one is
selected: channel 1 selected, channel 2 not; one stage position, two
z steps, three timepoints. -/
def ex_ms_one_selected : MicroscopeState :=
  { channels :=
      [(1, { is_selected := true, camera_exposure_time := 100,
             laser_index := 1, laser_power := 20, filter := "GFP - FF01-515/30-32" }),
       (2, { is_selected := false, camera_exposure_time := 250,
             laser_index := 2, laser_power := 30, filter := "RFP - FF01-595/31-32" })]
    stage_positions := [{ x := 0, y := 0, z := 0, theta := 0, f := 0 }]
    number_z_steps := 2
    timepoints := 3
    resolution_mode := "low"
    stack_cycling_mode := "per_stack" }

/-- Claim C1 is false as stated: with the two-channel state of which only
one channel is selected, prepare_acquisition_list sets total_image_count
to 12 = 2 * 1 * 3 * 2, counting both configured channels, and not to
6 = 1 * 1 * 3 * 2, which the claim (channel count N counting only
selected channels) predicts. -/
theorem prepare_acquisition_list_selected_counterexample :
    (prepare_acquisition_list initialModelState ex_ms_one_selected).total_image_count
        = some 12
      ∧ selected_channel_count ex_ms_one_selected
          * ex_ms_one_selected.stage_positions.length
          * ex_ms_one_selected.timepoints * ex_ms_one_selected.number_z_steps = 6
      ∧ (prepare_acquisition_list initialModelState ex_ms_one_selected).total_image_count
          ≠ some (selected_channel_count ex_ms_one_selected
              * ex_ms_one_selected.stage_positions.length
              * ex_ms_one_selected.timepoints * ex_ms_one_selected.number_z_steps) := by
  refine ⟨rfl, rfl, ?_⟩
  decide

/-- Claim C1 (amended): for every MicroscopeState,
prepare_acquisition_list resets image_count and acquisition_count to 0
and sets total_image_count to N * M * T * Z where N counts every entry of
the channels dict (selected or not), M the stage positions, T the
timepoints and Z the z steps. -/
theorem prepare_acquisition_list_counts (st : ModelState) (ms : MicroscopeState) :
    (prepare_acquisition_list st ms).image_count = 0
      ∧ (prepare_acquisition_list st ms).acquisition_count = 0
      ∧ (prepare_acquisition_list st ms).total_image_count
          = some (calculate_number_of_channels ms * ms.stage_positions.length
              * ms.timepoints * ms.number_z_steps) := by
  exact ⟨rfl, rfl, rfl⟩

/-- A selected channel whose camera exposure time (100 ms) differs from
the 200 ms default of the current_exposure_time model attribute. -/
def ex_channel_100ms : AcqChannel :=
  { is_selected := true, camera_exposure_time := 100,
    laser_index := 1, laser_power := 20, filter := "GFP - FF01-515/30-32" }

/-- Claim C2 is false as stated: running the sweep over the single
selected 100 ms channel from the initial model state emits
setSweepTime (200 / 1000) - the sweep time comes from the
current_exposure_time attribute of the model, which stays at its 200 ms
initialization - and not setSweepTime (100 / 1000) as the claim (sweep
time = exposure time of the channel, in milliseconds, divided by 1000)
predicts, so the emitted trace differs from the trace the claim states. -/
theorem run_single_acquisition_sweep_time_counterexample :
    (run_single_acquisition_over initialModelState [(1, ex_channel_100ms)]).2
        = per_channel_events initialModelState ex_channel_100ms
      ∧ (run_single_acquisition_over initialModelState [(1, ex_channel_100ms)]).2
        ≠ claim_channel_events initialModelState ex_channel_100ms := by
  constructor
  · rfl
  · intro h
    simp only [run_single_acquisition_over, per_channel_events, claim_channel_events,
      snap_image, initialModelState, ex_channel_100ms] at h
    norm_num at h

/-- Claim C2 (amended): when no stop flag is raised, run_single_acquisition
processes exactly the selected channels, skipping every channel whose
is_selected flag is false, and for each selected channel emits, in this
order: set the camera exposure to the exposure time of the channel,
trigger the configured digital laser, set the laser analog power of the
channel, set the filter wheel to the filter of the channel, set the DAQ
sweep time to the current_exposure_time attribute of the model in
milliseconds divided by 1000 (not the exposure time of the channel),
update the ETL parameters, and snap exactly one image via
daq.prepare_acquisition, then daq.run_acquisition, then
daq.stop_acquisition. -/
theorem run_single_acquisition_channel_order (st : ModelState)
    (chs : List (Nat × AcqChannel)) (ha : st.stop_acquisition = false)
    (hs : st.stop_send_signal = false) :
    (run_single_acquisition_over st chs).2
      = (chs.filter (fun c => c.2.is_selected)).flatMap
          (fun c => per_channel_events st c.2) := by
  induction chs generalizing st with
  | nil => simp [run_single_acquisition_over]
  | cons hd tl ih =>
    obtain ⟨channel_idx, channel⟩ := hd
    cases hsel : channel.is_selected with
    | true =>
      have hrec := ih { st with current_channel := channel_idx } ha hs
      simp only [run_single_acquisition_over]
      rw [ha, hs] at hrec ⊢
      simp [hsel, hrec, per_channel_events, snap_image]
    | false =>
      have hrec := ih st ha hs
      simp only [run_single_acquisition_over]
      rw [ha, hs]
      simp [hsel, hrec]

/-- Witness for run_single_acquisition_channel_order: the sweep over one
selected and one unselected channel, from the initial model state, emits
exactly the nine-command block of the selected channel. -/
theorem run_single_acquisition_channel_order_witness :
    (run_single_acquisition_over initialModelState
        ex_ms_one_selected.channels).2
      = (ex_ms_one_selected.channels.filter (fun c => c.2.is_selected)).flatMap
          (fun c => per_channel_events initialModelState c.2) :=
  run_single_acquisition_channel_order initialModelState
    ex_ms_one_selected.channels rfl rfl

/-- Claim C8 is false as stated: with no shared frame buffer set up
(data_buffer is none in the initial model state), run_command with the
single command returns normally with an empty action trace and an
unchanged state - it does not fail, and in particular does not raise a
BufferNotReadyError (no such error exists in the source; the source
prints a message when verbose and returns). -/
theorem run_command_no_buffer_counterexample :
    run_command initialModelState "single" ex_ms_one_selected true
        = (initialModelState, [], RunOutcome.normalReturn)
      ∧ (run_command initialModelState "single" ex_ms_one_selected true).2.2
        ≠ RunOutcome.raised "BufferNotReadyError" := by
  refine ⟨rfl, ?_⟩
  intro h
  simp [run_command, initialModelState] at h

/-- Claim C8 (amended): for every acquisition command, run_command first
tests that a shared frame buffer has been set up; when no buffer exists
it returns immediately without raising any error, performing none of the
command acquisition actions and leaving the model state unchanged. -/
theorem run_command_requires_buffer (st : ModelState) (command : String)
    (ms : MicroscopeState) (saving_is_save : Bool)
    (h : st.data_buffer = none) :
    run_command st command ms saving_is_save = (st, [], RunOutcome.normalReturn) := by
  simp [run_command, h]

/-- Witness for run_command_requires_buffer at the initial model state
and the live command. -/
theorem run_command_requires_buffer_witness :
    run_command initialModelState "live" ex_ms_one_selected false
      = (initialModelState, [], RunOutcome.normalReturn) :=
  run_command_requires_buffer initialModelState "live" ex_ms_one_selected false rfl

/-- The element just past the prefix taken by takeWhile fails the
predicate. -/
theorem get_after_takeWhile_false {α : Type} (p : α → Bool) :
    ∀ (l : List α) (a : α), l.get? (l.takeWhile p).length = some a → p a = false := by
  intro l
  induction l with
  | nil => intro a h; simp at h
  | cons hd tl ih =>
    intro a h
    cases hp : p hd with
    | true =>
      rw [List.takeWhile_cons_of_pos hp] at h
      simp only [List.length_cons, List.get?_cons_succ] at h
      exact ih a h
    | false =>
      rw [List.takeWhile_cons_of_neg (by simp [hp])] at h
      simp only [List.length_nil, List.get?_cons_zero, Option.some.injEq] at h
      rw [← h]
      exact hp

/-- Claim C10 is false as stated: from an initial state in which both
stop_acquisition and stop_send_signal are raised, run_live_acquisition
discards the stop_acquisition request but performs zero sweep iterations,
because stop_send_signal is observed true at the first while test - the
claim predicts at least one sweep iteration for every initial state with
the stop flag raised. -/
theorem run_live_acquisition_counterexample :
    ({ initialModelState with
        stop_acquisition := true
        stop_send_signal := true } : ModelState).stop_acquisition = true
      ∧ run_live_acquisition
          { initialModelState with
            stop_acquisition := true
            stop_send_signal := true } [] = 0 := by
  exact ⟨rfl, rfl⟩

/-- Claim C10 (amended): run_live_acquisition assigns
stop_acquisition := False on entry before first testing it, so the number
of sweeps is independent of the initial stop_acquisition value and a
pre-existing stop request is discarded; provided stop_send_signal is
false at the first while test, at least one sweep iteration begins; and
the loop exits only when one of stop_acquisition or stop_send_signal is
observed true at the top of an iteration. -/
theorem run_live_acquisition_spec (st : ModelState) (b : Bool)
    (obs : List (Bool × Bool)) :
    run_live_acquisition { st with stop_acquisition := b } obs
        = run_live_acquisition st obs
      ∧ (st.stop_send_signal = false → 1 ≤ run_live_acquisition st obs)
      ∧ (∀ o, ((false, st.stop_send_signal) :: obs).get?
            (run_live_acquisition st obs) = some o →
          o.1 = true ∨ o.2 = true) := by
  refine ⟨rfl, ?_, ?_⟩
  · intro hss
    simp [run_live_acquisition, live_loop_sweeps, hss, List.takeWhile_cons]
  · intro o ho
    simp only [run_live_acquisition, live_loop_sweeps] at ho
    have hfail := get_after_takeWhile_false (fun o => !o.1 && !o.2)
      ((false, st.stop_send_signal) :: obs) o ho
    by_cases h1 : o.1 = true
    · exact Or.inl h1
    · right
      have h1' : o.1 = false := by simpa using h1
      simpa [h1'] using hfail

/-- Witness for run_live_acquisition_spec: from the initial model state
(stop_send_signal false) with one later observation raising
stop_acquisition, exactly one sweep runs, and starting instead from the
state with stop_acquisition raised gives the same count. -/
theorem run_live_acquisition_spec_witness :
    1 ≤ run_live_acquisition initialModelState [(true, false)]
      ∧ run_live_acquisition { initialModelState with stop_acquisition := true }
          [(true, false)]
        = run_live_acquisition initialModelState [(true, false)] := by
  have h := run_live_acquisition_spec initialModelState true [(true, false)]
  exact ⟨h.2.1 rfl, h.1⟩

/-- Below 5 * number_of_slices, the per_stack elif cascade computes the
floor quotient of the image counter by the slice count. -/
theorem per_stack_channel_index_eq_div (i s : Nat) (h : i < 5 * s) :
    per_stack_channel_index i s = i / s := by
  unfold per_stack_channel_index
  split_ifs with h1 h2 h3 h4
  · exact (Nat.div_eq_of_lt (by omega)).symm
  · exact (Nat.div_eq_of_lt_le (by omega) (by omega)).symm
  · exact (Nat.div_eq_of_lt_le (by omega) (by omega)).symm
  · exact (Nat.div_eq_of_lt_le (by omega) (by omega)).symm
  · exact (Nat.div_eq_of_lt_le (by omega) (by omega)).symm

/-- At or beyond 5 * number_of_slices, the per_stack elif cascade falls
back to channel 0. -/
theorem per_stack_channel_index_fallback (i s : Nat) (h : 5 * s ≤ i) :
    per_stack_channel_index i s = 0 := by
  unfold per_stack_channel_index
  split_ifs with h1 h2 h3 h4 h5 <;> omega

/-- The per_stack elif cascade assigns channel 0 to counter value 0. -/
theorem per_stack_channel_index_at_zero (s : Nat) :
    per_stack_channel_index 0 s = 0 := by
  unfold per_stack_channel_index
  split_ifs with h1 h2 h3 h4 h5 <;> omega

/-- Claim C3: in per_stack cycling mode with total_images_per_volume
C * S and number_of_slices S, a frame processed at counter value
i < C * S is assigned channel i / S and slice i - (i / S) * S when
i / S < 5, counter values at or beyond 5 * S fall back to channel 0, and
when the counter has reached C * S it is reset, so that frame mapping to
channel 0, slice 0 (the counter advancing to 1). -/
theorem per_stack_identify_spec (st : CameraViewState) (c s i r : Nat)
    (hS : st.number_of_slices = s)
    (hT : st.total_images_per_volume = c * s)
    (hi : st.image_counter = i) :
    (i < c * s → i / s < 5 →
      (identify_channel_index_and_slice st "per_stack" r).channel_index = i / s
        ∧ (identify_channel_index_and_slice st "per_stack" r).slice_index
            = i - (i / s) * s
        ∧ (identify_channel_index_and_slice st "per_stack" r).image_counter = i + 1)
      ∧ (i < c * s → 5 * s ≤ i →
          (identify_channel_index_and_slice st "per_stack" r).channel_index = 0)
      ∧ (i = c * s →
          (identify_channel_index_and_slice st "per_stack" r).channel_index = 0
            ∧ (identify_channel_index_and_slice st "per_stack" r).slice_index = 0
            ∧ (identify_channel_index_and_slice st "per_stack" r).image_counter = 1) := by
  refine ⟨?_, ?_, ?_⟩
  · intro h1 h5
    have hs0 : 0 < s := by
      rcases Nat.eq_zero_or_pos s with h0 | h0
      · subst h0; simp at h1
      · exact h0
    have h5s : i < 5 * s := (Nat.div_lt_iff_lt_mul hs0).mp h5
    have hne : ¬ st.image_counter = st.total_images_per_volume := by
      rw [hi, hT]; exact Nat.ne_of_lt h1
    simp only [identify_channel_index_and_slice, if_neg hne]
    simp only [hi, hS]
    simp [per_stack_channel_index_eq_div i s h5s]
  · intro h1 h5
    have hne : ¬ st.image_counter = st.total_images_per_volume := by
      rw [hi, hT]; exact Nat.ne_of_lt h1
    simp only [identify_channel_index_and_slice, if_neg hne]
    simp only [hi, hS]
    simp [per_stack_channel_index_fallback i s h5]
  · intro hreset
    have heq : st.image_counter = st.total_images_per_volume := by
      rw [hi, hT, hreset]
    simp only [identify_channel_index_and_slice, if_pos heq]
    simp only [hS]
    simp [per_stack_channel_index_at_zero]

/-- Witness for per_stack_identify_spec: three channels, five slices,
counter value 7: channel 7 / 5 = 1, slice 7 - 5 = 2, counter advances
to 8. -/
theorem per_stack_identify_spec_witness :
    (identify_channel_index_and_slice
        { initialize_non_live_display 3 5 with image_counter := 7 }
        "per_stack" 0).channel_index = 7 / 5
      ∧ (identify_channel_index_and_slice
          { initialize_non_live_display 3 5 with image_counter := 7 }
          "per_stack" 0).slice_index = 7 - 7 / 5 * 5
      ∧ (identify_channel_index_and_slice
          { initialize_non_live_display 3 5 with image_counter := 7 }
          "per_stack" 0).image_counter = 7 + 1 :=
  (per_stack_identify_spec
    { initialize_non_live_display 3 5 with image_counter := 7 }
    3 5 7 0 rfl rfl rfl).1 (by decide) (by decide)

/-- Claim C4: in per_z cycling mode with C channels (C positive, which
Python requires for the modulo), a frame numbered images_received is
assigned channel images_received mod C; for states whose slice index has
not already reached total_images_per_volume (true of every reachable
state, since the source zeroes the slice index the moment it reaches that
bound), the slice index changes only on a frame whose channel index
equals C - 1, where it increments (wrapping to 0 when the increment
reaches total_images_per_volume). -/
theorem per_z_identify_spec (st : CameraViewState) (c i : Nat)
    (hC : st.number_of_channels = c) (h0 : 0 < c)
    (hs : st.slice_index ≠ st.total_images_per_volume) :
    (identify_channel_index_and_slice st "per_z" i).channel_index = i % c
      ∧ (i % c ≠ c - 1 →
          (identify_channel_index_and_slice st "per_z" i).slice_index
            = st.slice_index)
      ∧ (i % c = c - 1 →
          (identify_channel_index_and_slice st "per_z" i).slice_index
            = (if st.slice_index + 1 = st.total_images_per_volume then 0
               else st.slice_index + 1)) := by
  have hmode : ("per_z" : String) = "per_stack" → False := by decide
  refine ⟨?_, ?_, ?_⟩
  · simp only [identify_channel_index_and_slice]
    by_cases hreset : st.image_counter = st.total_images_per_volume <;>
      simp [hreset, hmode, hC]
  · intro hne
    simp only [identify_channel_index_and_slice]
    by_cases hreset : st.image_counter = st.total_images_per_volume <;>
      simp [hreset, hmode, hC, hne, hs]
  · intro heq
    simp only [identify_channel_index_and_slice]
    by_cases hreset : st.image_counter = st.total_images_per_volume <;>
      simp [hreset, hmode, hC, heq]

/-- Witness for per_z_identify_spec: two channels, frame 5 maps to
channel 5 mod 2 = 1 = C - 1, and the slice index advances from 3 to 4
(total_images_per_volume being 10). -/
theorem per_z_identify_spec_witness :
    (identify_channel_index_and_slice
        { initialize_non_live_display 2 5 with slice_index := 3 }
        "per_z" 5).channel_index = 5 % 2
      ∧ (identify_channel_index_and_slice
          { initialize_non_live_display 2 5 with slice_index := 3 }
          "per_z" 5).slice_index = 4 := by
  have h := per_z_identify_spec
    { initialize_non_live_display 2 5 with slice_index := 3 } 2 5
    rfl (by decide) (by decide)
  refine ⟨h.1, ?_⟩
  have h2 := h.2.2 (by decide)
  simpa [initialize_non_live_display] using h2


/-- Unfolding step of the retry loop: a failed attempt that is not the
last one sleeps and continues with the remaining attempts. -/
theorem auto_redial_loop_cons_cons {α : Type} (attempt : Nat → Option α)
    (i j : Nat) (rest : List Nat) (h : attempt i = none) :
    auto_redial_loop attempt (i :: j :: rest)
      = (RedialEvent.callAttempt i :: RedialEvent.sleepFor (1 / 2)
          :: (auto_redial_loop attempt (j :: rest)).1,
         (auto_redial_loop attempt (j :: rest)).2) := by
  rw [auto_redial_loop, h]

/-- When every attempt in a nonempty contiguous index block fails, the
retry loop calls each index once, sleeping half a second after every
failed attempt except the last, and ends with no connection (the
re-raise). -/
theorem auto_redial_loop_all_fail {α : Type} (attempt : Nat → Option α) :
    ∀ k i, (∀ j, i ≤ j → j < i + (k + 1) → attempt j = none) →
      auto_redial_loop attempt (List.range' i (k + 1))
        = ((List.range' i (k + 1)).flatMap (fun j =>
            if j + 1 < i + (k + 1) then
              [RedialEvent.callAttempt j, RedialEvent.sleepFor (1 / 2)]
            else [RedialEvent.callAttempt j]), none) := by
  intro k
  induction k with
  | zero =>
    intro i hfail
    simp [List.range'_succ, auto_redial_loop, hfail i (le_refl i) (by omega)]
  | succ k ih =>
    intro i hfail
    have hrec := ih (i + 1) (fun j h1 h2 => hfail j (by omega) (by omega))
    have hcc : List.range' (i + 1) (k + 1) = (i + 1) :: List.range' (i + 2) k := by
      rw [List.range'_succ]
    rw [List.range'_succ, hcc,
      auto_redial_loop_cons_cons attempt i (i + 1) _ (hfail i (le_refl i) (by omega)),
      ← hcc, hrec]
    simp only [List.flatMap_cons]
    rw [if_pos (by omega)]
    have hb : i + 1 + (k + 1) = i + (k + 1 + 1) := by omega
    rw [hb, hcc]
    simp [List.flatMap_cons]

/-- When the first successful attempt in a contiguous index block is at
index m, the retry loop calls indices up to m only, sleeping half a
second after each failure, and returns the connection of attempt m. -/
theorem auto_redial_loop_first_success {α : Type} (attempt : Nat → Option α) (v : α) :
    ∀ k i m, i ≤ m → m < i + k → attempt m = some v →
      (∀ j, i ≤ j → j < m → attempt j = none) →
      auto_redial_loop attempt (List.range' i k)
        = ((List.range' i (m - i + 1)).flatMap (fun j =>
            if j < m then
              [RedialEvent.callAttempt j, RedialEvent.sleepFor (1 / 2)]
            else [RedialEvent.callAttempt j]), some v) := by
  intro k
  induction k with
  | zero => intro i m h1 h2; omega
  | succ k ih =>
    intro i m him hmk hv hfail
    rcases Nat.eq_or_lt_of_le him with heq | hlt
    · subst heq
      rw [List.range'_succ]
      have hstep : auto_redial_loop attempt (i :: List.range' (i + 1) k)
          = ([RedialEvent.callAttempt i], some v) := by
        cases List.range' (i + 1) k with
        | nil => simp [auto_redial_loop, hv]
        | cons hd tl => simp [auto_redial_loop, hv]
      rw [hstep]
      simp [List.range'_succ]
    · obtain ⟨k', rfl⟩ : ∃ k', k = k' + 1 := ⟨k - 1, by omega⟩
      have hcc : List.range' (i + 1) (k' + 1) = (i + 1) :: List.range' (i + 2) k' := by
        rw [List.range'_succ]
      have hrec := ih (i + 1) m (by omega) (by omega) hv
        (fun j ha hb => hfail j (by omega) hb)
      rw [List.range'_succ, hcc,
        auto_redial_loop_cons_cons attempt i (i + 1) _ (hfail i (le_refl i) hlt),
        ← hcc, hrec]
      have hmi : m - i + 1 = (m - (i + 1) + 1) + 1 := by omega
      rw [hmi]
      conv_rhs => rw [List.range'_succ]
      simp only [List.flatMap_cons]
      rw [if_pos hlt]
      simp

/-- Claim C9: auto_redial calls the connection function over the attempt
indices range(n_tries) with the default bound 10; when the first success
is attempt k it calls attempts 0..k, sleeping 0.5 seconds after each of
the k failures, and returns the connection object with no further
attempts; when all n attempts fail it calls each of 0..n-1 with a 0.5
second sleep between consecutive attempts and ends with no connection
object (re-raising the configured exception). -/
theorem auto_redial_spec {α : Type} (attempt : Nat → Option α) (n k : Nat) (v : α) :
    auto_redial_default_tries = 10
      ∧ (k < n → attempt k = some v → (∀ j, j < k → attempt j = none) →
          auto_redial attempt n
            = ((List.range (k + 1)).flatMap (fun j =>
                if j < k then
                  [RedialEvent.callAttempt j, RedialEvent.sleepFor (1 / 2)]
                else [RedialEvent.callAttempt j]), some v))
      ∧ (0 < n → (∀ j, j < n → attempt j = none) →
          auto_redial attempt n
            = ((List.range n).flatMap (fun j =>
                if j + 1 < n then
                  [RedialEvent.callAttempt j, RedialEvent.sleepFor (1 / 2)]
                else [RedialEvent.callAttempt j]), none)) := by
  refine ⟨rfl, ?_, ?_⟩
  · intro hk hv hfail
    have h := auto_redial_loop_first_success attempt v n 0 k (Nat.zero_le k)
      (by omega) hv (fun j h1 h2 => hfail j h2)
    rw [auto_redial, List.range_eq_range', h]
    simp [List.range_eq_range']
  · intro hn hfail
    obtain ⟨n', rfl⟩ : ∃ n', n = n' + 1 := ⟨n - 1, by omega⟩
    have h := auto_redial_loop_all_fail attempt n' 0
      (fun j h1 h2 => hfail j (by omega))
    rw [auto_redial, List.range_eq_range', h]
    simp [List.range_eq_range']

/-- Witness for auto_redial_spec: with a connection that succeeds on the
second attempt and a three-try bound, auto_redial calls attempts 0 and 1
with one half-second sleep between them and returns the connection; with
a connection that always fails and a two-try bound, it calls both
attempts and ends with none. -/
theorem auto_redial_spec_witness :
    auto_redial (fun j => if j = 1 then some 42 else none) 3
        = ([RedialEvent.callAttempt 0, RedialEvent.sleepFor (1 / 2),
            RedialEvent.callAttempt 1], some 42)
      ∧ auto_redial (fun _ => (none : Option Nat)) 2
        = ([RedialEvent.callAttempt 0, RedialEvent.sleepFor (1 / 2),
            RedialEvent.callAttempt 1], none) := by
  constructor
  · have h := (auto_redial_spec (fun j => if j = 1 then some 42 else none) 3 1 42).2.1
      (by omega) (by decide) (by decide)
    rw [h]
    rfl
  · have h := (auto_redial_spec (fun _ => (none : Option Nat)) 2 0 0).2.2
      (by omega) (fun j hj => rfl)
    rw [h]
    rfl

/-- The Nat computation (s + r - 1) / r agrees with the real ceiling of
s / r taken in the rationals, for positive r. -/
theorem nat_ceil_cast_div (s r : Nat) (hr : 0 < r) :
    Nat.ceil ((s : ℚ) / (r : ℚ)) = ceil_div s r := by
  have hr' : (0 : ℚ) < (r : ℚ) := by exact_mod_cast hr
  have h1 : Nat.ceil ((s : ℚ) / (r : ℚ)) = s ⌈/⌉ r := by
    apply le_antisymm
    · rw [Nat.ceil_le, div_le_iff₀ hr']
      have h2 : s ≤ r * (s ⌈/⌉ r) := by
        have h := le_smul_ceilDiv (show 0 < r from hr) (b := s)
        simpa [smul_eq_mul] using h
      calc (s : ℚ) ≤ ((r * (s ⌈/⌉ r) : ℕ) : ℚ) := by exact_mod_cast h2
        _ = ((s ⌈/⌉ r : ℕ) : ℚ) * (r : ℚ) := by push_cast; ring
    · rw [ceilDiv_le_iff_le_mul hr]
      have h3 : (s : ℚ) ≤ (r : ℚ) * (Nat.ceil ((s : ℚ) / (r : ℚ)) : ℚ) := by
        have hle := Nat.le_ceil ((s : ℚ) / (r : ℚ))
        calc (s : ℚ) = ((s : ℚ) / (r : ℚ)) * r := by field_simp
          _ ≤ (Nat.ceil ((s : ℚ) / (r : ℚ)) : ℚ) * r :=
              mul_le_mul_of_nonneg_right hle (le_of_lt hr')
          _ = (r : ℚ) * (Nat.ceil ((s : ℚ) / (r : ℚ)) : ℚ) := by ring
      exact_mod_cast h3
  rw [h1, Nat.ceilDiv_eq_add_pred_div]
  rfl

/-- Claim C5: for a pyramid level l with (x, y, z) resolution factor r
(each component at least 1), the shapes property stores at position l the
(z, y, x) triple whose every axis is max(1, ceil(s / r_axis)) - the
ceiling taken over the rationals - for the matching full-volume extent s;
and when the resolution factor is (1, 1, 1) (as at level 0) and every
extent is at least 1, the level shape equals the full (z, y, x) shape. -/
theorem shapes_spec (m : PyramidMeta) (l : Nat) (r : Nat × Nat × Nat)
    (hr : m.resolutions.get? l = some r)
    (hx : 1 ≤ r.1) (hy : 1 ≤ r.2.1) (hz : 1 ≤ r.2.2) :
    (shapes m).get? l = some
        (max 1 (Nat.ceil ((m.shape_z : ℚ) / (r.2.2 : ℚ))),
         max 1 (Nat.ceil ((m.shape_y : ℚ) / (r.2.1 : ℚ))),
         max 1 (Nat.ceil ((m.shape_x : ℚ) / (r.1 : ℚ))))
      ∧ (r = (1, 1, 1) → 1 ≤ m.shape_z → 1 ≤ m.shape_y → 1 ≤ m.shape_x →
          (shapes m).get? l = some (m.shape_z, m.shape_y, m.shape_x)) := by
  have e1 := nat_ceil_cast_div m.shape_z r.2.2 (by omega)
  have e2 := nat_ceil_cast_div m.shape_y r.2.1 (by omega)
  have e3 := nat_ceil_cast_div m.shape_x r.1 (by omega)
  constructor
  · rw [shapes, List.get?_map, hr, Option.map_some', e1, e2, e3]
    simp [Nat.max_comm]
  · intro h1 hz1 hy1 hx1
    subst h1
    rw [shapes, List.get?_map, hr, Option.map_some']
    simp only [ceil_div]
    norm_num
    exact ⟨hz1, hy1, hx1⟩

/-- Witness for shapes_spec: a 2048 x 2048 x 100 volume with resolutions
[(1,1,1), (2,2,1)]; level 1 has shape (z, y, x) = (100, 1024, 1024) and
level 0 the full shape. -/
theorem shapes_spec_witness :
    (shapes { shape_x := 2048, shape_y := 2048, shape_z := 100, shape_c := 2,
              shape_t := 1, positions := 1,
              resolutions := [(1, 1, 1), (2, 2, 1)] }).get? 1
        = some (100, 1024, 1024)
      ∧ (shapes { shape_x := 2048, shape_y := 2048, shape_z := 100, shape_c := 2,
                  shape_t := 1, positions := 1,
                  resolutions := [(1, 1, 1), (2, 2, 1)] }).get? 0
        = some (100, 2048, 2048) := by
  constructor
  · have h := (shapes_spec
      { shape_x := 2048, shape_y := 2048, shape_z := 100, shape_c := 2,
        shape_t := 1, positions := 1, resolutions := [(1, 1, 1), (2, 2, 1)] }
      1 (2, 2, 1) rfl (by decide) (by decide) (by decide)).1
    rw [h]
    have e1 := nat_ceil_cast_div 100 1 (by decide)
    have e2 := nat_ceil_cast_div 2048 2 (by decide)
    norm_num [e1, e2, ceil_div]
  · have h := (shapes_spec
      { shape_x := 2048, shape_y := 2048, shape_z := 100, shape_c := 2,
        shape_t := 1, positions := 1, resolutions := [(1, 1, 1), (2, 2, 1)] }
      0 (1, 1, 1) rfl (by decide) (by decide) (by decide)).2
      rfl (by decide) (by decide) (by decide)
    exact h

/-- Claim C6: for every pyramid level l whose (z, y, x) shape triple is
sh, the subdivisions property stores at position l the triple
max(1, gcd(32, shape_axis)) computed from that shape, reported in
(x, y, z) order - the reverse of the internal (z, y, x) storage order. -/
theorem subdivisions_spec (m : PyramidMeta) (l : Nat) (sh : Nat × Nat × Nat)
    (hsh : (shapes m).get? l = some sh) :
    (subdivisions m).get? l
      = some (max 1 (Nat.gcd 32 sh.2.2), max 1 (Nat.gcd 32 sh.2.1),
              max 1 (Nat.gcd 32 sh.1)) := by
  rw [subdivisions, List.get?_map, hsh, Option.map_some']
  simp [Nat.max_comm]

/-- Witness for subdivisions_spec: at the level-1 shape (100, 1024, 1024)
of the example volume the subdivisions are (x, y, z) =
(gcd(32,1024), gcd(32,1024), gcd(32,100)) = (32, 32, 4). -/
theorem subdivisions_spec_witness :
    (subdivisions { shape_x := 2048, shape_y := 2048, shape_z := 100, shape_c := 2,
                    shape_t := 1, positions := 1,
                    resolutions := [(1, 1, 1), (2, 2, 1)] }).get? 1
      = some (32, 32, 4) := by
  have h := subdivisions_spec
    { shape_x := 2048, shape_y := 2048, shape_z := 100, shape_c := 2,
      shape_t := 1, positions := 1, resolutions := [(1, 1, 1), (2, 2, 1)] }
    1 (100, 1024, 1024) (by decide)
  rw [h]
  rfl

/-- Dropping a trailing Ellipsis does not change the normalized iterable
of any axis: below the dropped position the components agree, at the
dropped position the Ellipsis already selected the whole axis. -/
theorem ensure_iter_dropLast (keys : List IndexKey) (axis dim : Nat)
    (h : keys.getLast? = some IndexKey.ellipsisKey) :
    ensure_iter keys.dropLast axis dim = ensure_iter keys axis dim := by
  have hne : keys ≠ [] := by
    intro hnil
    rw [hnil] at h
    simp at h
  have hlen : 1 ≤ keys.length := by
    cases keys with
    | nil => exact absurd rfl hne
    | cons a l => simp
  unfold ensure_iter
  rw [List.get?_eq_getElem?, List.get?_eq_getElem?, List.getElem?_dropLast]
  rcases lt_trichotomy axis (keys.length - 1) with hax | hax | hax
  · rw [if_pos hax]
  · rw [if_neg (by omega)]
    rw [List.getLast?_eq_getElem?] at h
    rw [hax, h]
  · rw [if_neg (by omega)]
    rw [List.getElem?_eq_none (by omega)]

/-- Dropping a trailing Ellipsis does not change the normalized slice of
any axis. -/
theorem ensure_slice_dropLast (keys : List IndexKey) (axis : Nat)
    (h : keys.getLast? = some IndexKey.ellipsisKey) :
    ensure_slice keys.dropLast axis = ensure_slice keys axis := by
  have hne : keys ≠ [] := by
    intro hnil
    rw [hnil] at h
    simp at h
  have hlen : 1 ≤ keys.length := by
    cases keys with
    | nil => exact absurd rfl hne
    | cons a l => simp
  unfold ensure_slice
  rw [List.get?_eq_getElem?, List.get?_eq_getElem?, List.getElem?_dropLast]
  rcases lt_trichotomy axis (keys.length - 1) with hax | hax | hax
  · rw [if_pos hax]
  · rw [if_neg (by omega)]
    rw [List.getLast?_eq_getElem?] at h
    rw [hax, h]
  · rw [if_neg (by omega)]
    rw [List.getElem?_eq_none (by omega)]

/-- For an index tuple of at most 7 components ending in Ellipsis, both
the tuple and the tuple with the Ellipsis stripped select subdivision
level 0. -/
theorem getitem_sub_dropLast (keys : List IndexKey)
    (h2 : 2 ≤ keys.length) (h7 : keys.length ≤ 7)
    (h : keys.getLast? = some IndexKey.ellipsisKey) :
    getitem_sub keys = 0 ∧ getitem_sub keys.dropLast = 0 := by
  have hsel : (if 1 < keys.length ∧ keys.getLast? = some IndexKey.ellipsisKey
      then keys.dropLast else keys) = keys.dropLast := if_pos ⟨by omega, h⟩
  constructor
  · unfold getitem_sub
    rw [hsel]
    rw [if_neg (show ¬ 6 < keys.dropLast.length by
      rw [List.length_dropLast]; omega)]
  · unfold getitem_sub
    by_cases hcond : 1 < keys.dropLast.length
        ∧ keys.dropLast.getLast? = some IndexKey.ellipsisKey
    · rw [if_pos hcond,
        if_neg (show ¬ 6 < keys.dropLast.dropLast.length by
          rw [List.length_dropLast, List.length_dropLast]; omega)]
    · rw [if_neg hcond,
        if_neg (show ¬ 6 < keys.dropLast.length by
          rw [List.length_dropLast]; omega)]

/-- When the c, t, p selectors are not all singletons, getitem_core takes
the cross-product path, reading the resolution of the selected
subdivision level. -/
theorem getitem_core_multi (m : PyramidMeta) (xs ys : AxisSlice) (cs : List Nat)
    (zs : AxisSlice) (ts ps : List Nat) (sub : Nat)
    (h : ¬ (cs.length = 1 ∧ ts.length = 1 ∧ ps.length = 1)) :
    getitem_core m xs ys cs zs ts ps sub
      = (match m.resolutions.get? sub with
         | none =>
           Except.error "index out of bounds: no such subdivision level"
         | some r =>
           Except.ok (GetItemResult.multi6D
             (ps.length, ts.length, slice_len zs m.shape_z / r.2.2,
              cs.length, slice_len ys m.shape_y / r.2.1,
              slice_len xs m.shape_x / r.1)
             (cs.flatMap (fun c => ts.flatMap (fun t => ps.map (fun p =>
               (⟨xs, ys, c, zs, t, p, sub⟩ : SliceCall))))))) := by
  unfold getitem_core
  split
  · simp at h
  · rfl

/-- The cross-product delegation makes one get_slice call per element of
the c, t, p cross-product. -/
theorem cross_product_calls_length (cs ts ps : List Nat) (f : Nat → Nat → Nat → SliceCall) :
    (cs.flatMap (fun c => ts.flatMap (fun t => ps.map (fun p => f c t p)))).length
      = cs.length * (ts.length * ps.length) := by
  induction cs with
  | nil => simp
  | cons c cs ih =>
    have hconst : (List.map
        (List.length ∘ fun t => List.map (fun p => f c t p) ps) ts).sum
        = ts.length * ps.length := by
      clear ih
      induction ts with
      | nil => simp
      | cons t ts iht => simp [iht, Nat.succ_mul, Nat.add_comm]
    simp [ih]
    rw [hconst]
    ring

/-- Claim C7 (amended): getitem raises the length IndexError exactly when
the index tuple has fewer than 1 or more than 7 components.  For a tuple
of 1 to 7 components: a trailing Ellipsis (when at least two components
are present) is stripped without changing the result; when the c, t and
p selectors each select exactly one value the call returns the single 3D
get_slice result; otherwise, when the selected subdivision level exists,
it returns the 6D (p, t, z, c, y, x) result delegating one get_slice
call per element of the c, t, p cross-product - and when the subdivision
level does not exist, an IndexError still arises despite the length
check passing. -/
theorem getitem_spec (m : PyramidMeta) (keys : List IndexKey) :
    (keys.length < 1 ∨ 7 < keys.length → ∃ e, getitem m keys = Except.error e)
      ∧ (1 ≤ keys.length → keys.length ≤ 7 →
          (2 ≤ keys.length → keys.getLast? = some IndexKey.ellipsisKey →
              getitem m keys = getitem m keys.dropLast)
            ∧ (∀ c t p, ensure_iter keys 2 m.shape_c = [c] →
                ensure_iter keys 4 m.shape_t = [t] →
                ensure_iter keys 5 m.positions = [p] →
                getitem m keys = Except.ok (GetItemResult.single3D
                  ⟨ensure_slice keys 0, ensure_slice keys 1, c,
                   ensure_slice keys 3, t, p, getitem_sub keys⟩))
            ∧ (¬ ((ensure_iter keys 2 m.shape_c).length = 1
                  ∧ (ensure_iter keys 4 m.shape_t).length = 1
                  ∧ (ensure_iter keys 5 m.positions).length = 1) →
                (∀ r, m.resolutions.get? (getitem_sub keys) = some r →
                    getitem m keys = Except.ok (GetItemResult.multi6D
                      ((ensure_iter keys 5 m.positions).length,
                       (ensure_iter keys 4 m.shape_t).length,
                       slice_len (ensure_slice keys 3) m.shape_z / r.2.2,
                       (ensure_iter keys 2 m.shape_c).length,
                       slice_len (ensure_slice keys 1) m.shape_y / r.2.1,
                       slice_len (ensure_slice keys 0) m.shape_x / r.1)
                      ((ensure_iter keys 2 m.shape_c).flatMap (fun c =>
                        (ensure_iter keys 4 m.shape_t).flatMap (fun t =>
                          (ensure_iter keys 5 m.positions).map (fun p =>
                            (⟨ensure_slice keys 0, ensure_slice keys 1, c,
                              ensure_slice keys 3, t, p,
                              getitem_sub keys⟩ : SliceCall)))))))
                  ∧ (m.resolutions.get? (getitem_sub keys) = none →
                      ∃ e, getitem m keys = Except.error e))) := by
  have hget : ∀ (hk1 : ¬ keys.length < 1) (hk7 : ¬ 7 < keys.length),
      getitem m keys = getitem_core m (ensure_slice keys 0) (ensure_slice keys 1)
        (ensure_iter keys 2 m.shape_c) (ensure_slice keys 3)
        (ensure_iter keys 4 m.shape_t) (ensure_iter keys 5 m.positions)
        (getitem_sub keys) := by
    intro hk1 hk7
    unfold getitem
    rw [if_neg hk1, if_neg hk7]
  refine ⟨?_, ?_⟩
  · intro h
    rcases h with h | h
    · refine ⟨"Too few indices. Indices may be (x, y, c, z, t, p, subdivisions).", ?_⟩
      unfold getitem
      rw [if_pos h]
    · refine ⟨"Too many indices. Indices may be (x, y, c, z, t, p, subdivisions).", ?_⟩
      unfold getitem
      rw [if_neg (by omega), if_pos h]
  · intro hk1 hk7
    have hk1' : ¬ keys.length < 1 := by omega
    have hk7' : ¬ 7 < keys.length := by omega
    refine ⟨?_, ?_, ?_⟩
    · intro h2 hell
      have hd1 : ¬ keys.dropLast.length < 1 := by
        rw [List.length_dropLast]; omega
      have hd7 : ¬ 7 < keys.dropLast.length := by
        rw [List.length_dropLast]; omega
      have hsub := getitem_sub_dropLast keys h2 hk7 hell
      have hgetd : getitem m keys.dropLast
          = getitem_core m (ensure_slice keys.dropLast 0)
            (ensure_slice keys.dropLast 1)
            (ensure_iter keys.dropLast 2 m.shape_c)
            (ensure_slice keys.dropLast 3)
            (ensure_iter keys.dropLast 4 m.shape_t)
            (ensure_iter keys.dropLast 5 m.positions)
            (getitem_sub keys.dropLast) := by
        unfold getitem
        rw [if_neg hd1, if_neg hd7]
      rw [hget hk1' hk7', hgetd,
        ensure_slice_dropLast keys 0 hell, ensure_slice_dropLast keys 1 hell,
        ensure_slice_dropLast keys 3 hell,
        ensure_iter_dropLast keys 2 m.shape_c hell,
        ensure_iter_dropLast keys 4 m.shape_t hell,
        ensure_iter_dropLast keys 5 m.positions hell,
        hsub.1, hsub.2]
    · intro c t p hc ht hp
      rw [hget hk1' hk7', hc, ht, hp]
      rfl
    · intro hmulti
      refine ⟨?_, ?_⟩
      · intro r hr
        rw [hget hk1' hk7',
          getitem_core_multi m (ensure_slice keys 0) (ensure_slice keys 1)
            (ensure_iter keys 2 m.shape_c) (ensure_slice keys 3)
            (ensure_iter keys 4 m.shape_t) (ensure_iter keys 5 m.positions)
            (getitem_sub keys) hmulti,
          hr]
      · intro hr
        refine ⟨"index out of bounds: no such subdivision level", ?_⟩
        rw [hget hk1' hk7',
          getitem_core_multi m (ensure_slice keys 0) (ensure_slice keys 1)
            (ensure_iter keys 2 m.shape_c) (ensure_slice keys 3)
            (ensure_iter keys 4 m.shape_t) (ensure_iter keys 5 m.positions)
            (getitem_sub keys) hmulti,
          hr]

/-- Witness for getitem_spec: on a 64 x 64 x 8, two-channel, one-level
dataset, the three-component index (:, :, 1) selects a single channel,
timepoint and position and returns the single 3D get_slice call; and a
trailing Ellipsis is stripped without changing the result. -/
theorem getitem_spec_witness :
    getitem { shape_x := 64, shape_y := 64, shape_z := 8, shape_c := 2,
              shape_t := 1, positions := 1, resolutions := [(1, 1, 1)] }
        [IndexKey.colon, IndexKey.colon, IndexKey.scalar 1]
        = Except.ok (GetItemResult.single3D
            ⟨AxisSlice.whole, AxisSlice.whole, 1, AxisSlice.whole, 0, 0, 0⟩)
      ∧ getitem { shape_x := 64, shape_y := 64, shape_z := 8, shape_c := 2,
                  shape_t := 1, positions := 1, resolutions := [(1, 1, 1)] }
          [IndexKey.colon, IndexKey.ellipsisKey]
        = getitem { shape_x := 64, shape_y := 64, shape_z := 8, shape_c := 2,
                    shape_t := 1, positions := 1, resolutions := [(1, 1, 1)] }
          ([IndexKey.colon, IndexKey.ellipsisKey] : List IndexKey).dropLast := by
  constructor
  · have h := ((getitem_spec
      { shape_x := 64, shape_y := 64, shape_z := 8, shape_c := 2,
        shape_t := 1, positions := 1, resolutions := [(1, 1, 1)] }
      [IndexKey.colon, IndexKey.colon, IndexKey.scalar 1]).2
      (by decide) (by decide)).2.1 1 0 0 rfl rfl rfl
    rw [h]
    rfl
  · exact ((getitem_spec
      { shape_x := 64, shape_y := 64, shape_z := 8, shape_c := 2,
        shape_t := 1, positions := 1, resolutions := [(1, 1, 1)] }
      [IndexKey.colon, IndexKey.ellipsisKey]).2
      (by decide) (by decide)).1 (by decide) rfl

/-- Claim C7 is false as stated: the seven-component index
(:, :, 0:2, :, 0, 0, 1) passes the length check (length 7, within 1..7)
and selects two channels, so the cross-product path reads
resolutions[1]; with the constructor-default single-level resolution
pyramid that read is out of bounds and the call raises IndexError even
though the index tuple has an allowed number of components. -/
theorem getitem_subdivision_counterexample :
    ([IndexKey.colon, IndexKey.colon, IndexKey.rangeIdx 0 2, IndexKey.colon,
      IndexKey.scalar 0, IndexKey.scalar 0, IndexKey.scalar 1]
        : List IndexKey).length = 7
      ∧ getitem { shape_x := 64, shape_y := 64, shape_z := 8, shape_c := 2,
                  shape_t := 1, positions := 1, resolutions := [(1, 1, 1)] }
          [IndexKey.colon, IndexKey.colon, IndexKey.rangeIdx 0 2, IndexKey.colon,
           IndexKey.scalar 0, IndexKey.scalar 0, IndexKey.scalar 1]
        = Except.error "index out of bounds: no such subdivision level" := by
  exact ⟨rfl, rfl⟩
